import Mathlib

/-!
Verification of the WDL generator core of `acclimatise`
(`acclimatise/converter/wdl.py`): type lowering (`lowest_common_type`),
the recursive type mapper (`type_to_wdl`), the identifier/command-token
sanitization rule (`WDL_STRIP`), and the command-input builder
(`flag_to_command_input`).

The abstract CLI type model (`acclimatise.cli_types`) and argument model
(`acclimatise.model`, `acclimatise.converter.NamedArgument`) are repository
code outside the provided source tree; they are modelled from the spec
(sections 3 and 4.4): a closed tagged variant of value types, and an
argument paired with a chosen name.
-/

/-- Modelled from the spec (section 3): the tag of an abstract CLI type.
In the Python source each tag is a distinct class in `acclimatise.cli_types`
(`CliString`, `CliFloat`, ...); `type(t)` yields this tag. -/
inductive Tag where
  | string
  | float
  | boolean
  | integer
  | file
  | directory
  | tuple
  | list
  | enum
  | dict
  deriving DecidableEq, Repr, Fintype

/-- Modelled from the spec (section 3): the abstract CLI value types of
`acclimatise.cli_types`. `CliTuple` carries its element types and the
`homogenous` flag; `CliList` carries its element type; `CliDict` carries key
and value types. `CliEnum`'s symbol set is irrelevant to the code under
study and is not modelled. -/
inductive CliType where
  | CliString
  | CliFloat
  | CliBoolean
  | CliInteger
  | CliFile
  | CliDir
  | CliTuple (values : List CliType) (homogenous : Bool)
  | CliList (value : CliType)
  | CliEnum
  | CliDict (key : CliType) (value : CliType)
  deriving Repr

/-- The tag (Python class) of a type instance: `type(t)` in the source. -/
def tagOf : CliType → Tag
  | .CliString => .string
  | .CliFloat => .float
  | .CliBoolean => .boolean
  | .CliInteger => .integer
  | .CliFile => .file
  | .CliDir => .directory
  | .CliTuple _ _ => .tuple
  | .CliList _ => .list
  | .CliEnum => .enum
  | .CliDict _ _ => .dict

/-- Exceptions that escape the embedded functions.
`typeErrorOnJoin`: in `lowest_common_type`, the statement
`raise Exception("There is no common type between {}".format(", ".join(type_set)))`
evaluates `", ".join` over a set of classes; `str.join` requires string
items, so a `TypeError` is raised while building the message, before the
intended exception (and its tag-naming text) ever exists.  The escaping
error therefore carries no tag names, which is why this constructor has no
arguments.
`indexError`: `typ.values[0]` on an empty tuple. -/
inductive PyError where
  | typeErrorOnJoin
  | indexError
  deriving DecidableEq, Repr

/-- The exact image of `lowest_common_type`'s successful returns:
`type_set.pop()` returns a bare class (only the tag, no parameters);
the other two returns are the fresh instances `CliFloat()` and
`CliString()`. -/
inductive LctOk where
  | classOf (t : Tag)
  | floatInst
  | stringInst
  deriving DecidableEq, Repr

deriving instance DecidableEq for Except

/-- The complex/structured tags checked by `lowest_common_type`:
`{CliDir, CliDict, CliFile, CliTuple, CliList}`. -/
def complexTags : List Tag := [.directory, .dict, .file, .tuple, .list]

/-- Embedding of `lowest_common_type` (wdl.py lines 48-77).
`type_set = {type(t) for t in types}` is the deduplicated list of tags.
If there is exactly one tag, `type_set.pop()` returns that bare class
(`headD`'s default is unreachable: the branch requires length 1).
If the tags are exactly two and include `CliInteger` and `CliFloat`,
return `CliFloat()`.  If any complex tag is present, the raise statement's
message formatting fails first (see `PyError.typeErrorOnJoin`).
Otherwise return `CliString()`. -/
def lowest_common_type (types : List CliType) : Except PyError LctOk :=
  let tset := (types.map tagOf).dedup
  if tset.length = 1 then
    .ok (.classOf (tset.headD .string))
  else if tset.length = 2 ∧ Tag.integer ∈ tset ∧ Tag.float ∈ tset then
    .ok .floatInst
  else if ∃ t ∈ tset, t ∈ complexTags then
    .error .typeErrorOnJoin
  else
    .ok .stringInst

/-- The primitive type tags of the target language (wdlgen
`PrimitiveType.kString` and so on). -/
inductive PrimTag where
  | string
  | float
  | boolean
  | int
  | file
  | directory
  deriving DecidableEq, Repr

/-- The target type expression (wdlgen `WdlType` wrapping `PrimitiveType` or
`ArrayType`).  The wdlgen constructor is `WdlType(type_obj, optional=False)`:
when the source omits the `optional` keyword (as it does in every array
branch of `type_to_wdl`), the wrapper's optionality is the constant `false`.
`ArrayType(t, requires_multiple=b)` is an array that, when `b` holds,
requires at least one element. -/
inductive WdlType where
  | primitive (tag : PrimTag) (optional : Bool)
  | array (element : WdlType) (requiresMultiple : Bool) (optional : Bool)
  deriving DecidableEq, Repr

/-- The optionality bit of a target type expression. -/
def WdlType.optionalFlag : WdlType → Bool
  | .primitive _ o => o
  | .array _ _ o => o

/-- Behaviour of `cls.type_to_wdl` on the values `lowest_common_type` can
return (wdl.py line 120 feeds the lowering result straight back into
`type_to_wdl`).  A `CliFloat()` instance takes the float branch and a
`CliString()` instance the string branch; a bare class is an instance of
no `cli_types` class, so every `isinstance` check fails and the final
`else` produces a string type. -/
def typeToWdlOnLct (r : LctOk) (optional : Bool) : WdlType :=
  match r with
  | .floatInst => .primitive .float optional
  | .stringInst => .primitive .string optional
  | .classOf _ => .primitive .string optional

/-- Embedding of `WdlGenerator.type_to_wdl` (wdl.py lines 96-131).
Primitive branches pass `optional` through to the `WdlType` wrapper.
A homogenous tuple maps `typ.values[0]` (IndexError when empty) with the
default `optional=False` and wraps it in
`ArrayType(..., requires_multiple=not optional)`; the `WdlType` wrapper
around the array is built without the `optional` keyword, hence not
optional.  A non-homogenous tuple lowers its element types first (errors
propagate) and feeds the result back into `type_to_wdl`.  A list maps its
element with the default `optional=False` and wraps likewise.  `CliEnum`
maps to string; `CliDict` matches no `isinstance` branch and falls into
the final `else`, also string. -/
def type_to_wdl : CliType → Bool → Except PyError WdlType
  | .CliString, optional => .ok (.primitive .string optional)
  | .CliFloat, optional => .ok (.primitive .float optional)
  | .CliBoolean, optional => .ok (.primitive .boolean optional)
  | .CliInteger, optional => .ok (.primitive .int optional)
  | .CliFile, optional => .ok (.primitive .file optional)
  | .CliDir, optional => .ok (.primitive .directory optional)
  | .CliTuple [] true, _ => .error .indexError
  | .CliTuple (v0 :: _) true, optional =>
      (type_to_wdl v0 false).map (fun w => .array w (!optional) false)
  | .CliTuple vs false, optional =>
      (lowest_common_type vs).map
        (fun r => .array (typeToWdlOnLct r false) (!optional) false)
  | .CliList e, optional =>
      (type_to_wdl e false).map (fun w => .array w (!optional) false)
  | .CliEnum, optional => .ok (.primitive .string optional)
  | .CliDict _ _, optional => .ok (.primitive .string optional)

/-- Holds when a type contains no tuple along the paths `type_to_wdl`
recurses into: list elements are entered, a dictionary's key and value
types are never entered (the dict branch returns immediately). -/
def tupleFree : CliType → Bool
  | .CliString => true
  | .CliFloat => true
  | .CliBoolean => true
  | .CliInteger => true
  | .CliFile => true
  | .CliDir => true
  | .CliTuple _ _ => false
  | .CliList e => tupleFree e
  | .CliEnum => true
  | .CliDict _ _ => true

/-- Holds exactly on the `CliList` and `CliTuple` shapes, the types mapped
to arrays by `type_to_wdl`. -/
def isListOrTuple : CliType → Bool
  | .CliList _ => true
  | .CliTuple _ _ => true
  | _ => false

/-- A legal continuation character of a WDL identifier: the character
class `[a-zA-Z0-9_]` of the `WDL_STRIP` regex. -/
def isIdentContinuation (c : Char) : Bool :=
  c.isAlpha || c.isDigit || c == '_'

/-- Action of `WDL_STRIP.sub(repl, -)` on the characters after the first:
the anchored alternative `^[^a-zA-Z]` cannot match there, so a character
is replaced by `repl` exactly when it falls outside `[a-zA-Z0-9_]`. -/
def stripTail (repl : List Char) : List Char → List Char
  | [] => []
  | d :: ds => (if isIdentContinuation d then [d] else repl) ++ stripTail repl ds

/-- Embedding of `WDL_STRIP.sub(repl, s)` for the regex
`(^[^a-zA-Z])|([^a-zA-Z0-9_])` (wdl.py line 21).  Each match consumes one
character.  At position 0 the anchored first alternative fires whenever the
character is not a letter (so a leading digit or underscore is also
replaced); at later positions only the second alternative can fire. -/
def wdlStripSub (repl : String) (s : String) : String :=
  match s.data with
  | [] => ""
  | c :: rest =>
      String.mk ((if c.isAlpha then [c] else repl.data) ++ stripTail repl.data rest)

/-- The identifier-stripping rule: `WDL_STRIP.sub("", token)` as applied to
each command token in `make_task_name` (wdl.py line 168). -/
def stripIdentOnce (s : String) : String := wdlStripSub "" s

/-- The command-token sanitization of `make_command` (wdl.py line 146):
`WDL_STRIP.sub("_", tok)` — illegal characters are replaced by an
underscore, not removed. -/
def stripCommandToken (tok : String) : String := wdlStripSub "_" tok

/-- Embedding of the command string built by `make_command`:
`" ".join([WDL_STRIP.sub("_", tok) for tok in cmd.command])`. -/
def make_command_string (command : List String) : String :=
  String.intercalate " " (command.map stripCommandToken)

/-- The WDL identifier grammar `[a-zA-Z][a-zA-Z0-9_]*` (the `WDL_IDENT`
regex, wdl.py line 19), as a full-string match. -/
def matchesWdlIdent (s : String) : Bool :=
  match s.data with
  | [] => false
  | c :: rest => c.isAlpha && rest.all isIdentContinuation

/-- Modelled from the spec (section 3): the value kind of a flag,
`EmptyFlagArg` (a boolean switch) versus a valued argument. -/
inductive FlagValueKind where
  | empty
  | valued
  deriving DecidableEq, Repr

/-- Modelled from the spec (sections 3 and 4.4): a flag-style argument of
`acclimatise.model.Flag` with its synonym spellings, value kind and
optionality. -/
structure FlagData where
  synonyms : List String
  kind : FlagValueKind
  optional : Bool
  deriving DecidableEq, Repr

/-- Modelled from the spec (section 3): a positional argument of
`acclimatise.model.Positional` with its position and optionality. -/
structure PositionalData where
  position : Nat
  optional : Bool
  deriving DecidableEq, Repr

/-- Modelled from the spec (section 3): the polymorphic argument kind of
`acclimatise.model.CliArgument` — flag-style or positional. -/
inductive CliArgument where
  | flag (f : FlagData)
  | positional (p : PositionalData)
  deriving DecidableEq, Repr

/-- Modelled from the spec (section 3): `acclimatise.converter.NamedArgument`
is an argument paired with its chosen name.  It is its own record type, not
a subclass of the argument kinds: an `isinstance` test against
`model.Positional` on this wrapper is always false. -/
structure NamedArgument where
  name : String
  arg : CliArgument
  deriving DecidableEq, Repr

/-- Modelled from the spec (section 4.4): `longest_synonym` selects, among a
flag's recorded spellings, the one with the greatest character length,
breaking ties by first-seen order. -/
def longestSynonym : List String → String
  | [] => ""
  | s :: rest => (s :: rest).foldl (fun best c => if c.length > best.length then c else best) s

/-- The wdlgen `Task.Command.CommandInput` keyword arguments that
`flag_to_command_input` may supply.  A field holds `none` when the
corresponding keyword is not passed and the library default applies
(`optional=False`, `position=None`, and so on).  `trueText` and `falseText`
stand for the `true=` and `false=` keywords. -/
structure CommandInput where
  name : String
  optional : Option Bool := none
  trueText : Option String := none
  falseText : Option String := none
  prefixText : Option String := none
  position : Option Nat := none
  deriving DecidableEq, Repr

/-- Embedding of `flag_to_command_input` (wdl.py lines 31-45).
For a flag, `optional` is set from the model and either the `true=` and
`false=` pair (empty value kind) or the `prefix=` keyword (valued kind) is
filled from the longest synonym.  The second branch of the source is
`elif isinstance(named_flag, model.Positional)`: it tests the
`NamedArgument` wrapper itself rather than `named_flag.arg`, and the
wrapper is never a `model.Positional`, so for a positional argument no
branch fires and only the name is passed. -/
def flag_to_command_input (named_flag : NamedArgument) : CommandInput :=
  match named_flag.arg with
  | .flag f =>
      match f.kind with
      | .empty =>
          { name := named_flag.name
            optional := some f.optional
            trueText := some (longestSynonym f.synonyms)
            falseText := some "" }
      | .valued =>
          { name := named_flag.name
            optional := some f.optional
            prefixText := some (longestSynonym f.synonyms) }
  | .positional _ => { name := named_flag.name }

theorem stripTail_nil (ds : List Char) :
    stripTail [] ds = ds.filter isIdentContinuation := by
  induction ds with
  | nil => rfl
  | cons d ds ih =>
      by_cases hd : isIdentContinuation d <;>
        simp [stripTail, List.filter_cons, hd, ih]

theorem stripTail_of_all (repl : List Char) (ds : List Char)
    (h : ds.all isIdentContinuation = true) : stripTail repl ds = ds := by
  induction ds with
  | nil => rfl
  | cons d ds ih =>
      rw [List.all_cons, Bool.and_eq_true] at h
      simp [stripTail, h.1, ih h.2]

theorem filter_continuation_all (ds : List Char) :
    (ds.filter isIdentContinuation).all isIdentContinuation = true := by
  rw [List.all_eq_true]
  intro a ha
  exact (List.mem_filter.mp ha).2

theorem typeToWdlOnLct_false_flag (r : LctOk) :
    (typeToWdlOnLct r false).optionalFlag = false := by
  cases r <;> rfl

theorem wdl_of_false_not_optional (t : CliType) (w : WdlType)
    (h : type_to_wdl t false = .ok w) : w.optionalFlag = false := by
  cases t with
  | CliString => injection h with h2; rw [← h2]; rfl
  | CliFloat => injection h with h2; rw [← h2]; rfl
  | CliBoolean => injection h with h2; rw [← h2]; rfl
  | CliInteger => injection h with h2; rw [← h2]; rfl
  | CliFile => injection h with h2; rw [← h2]; rfl
  | CliDir => injection h with h2; rw [← h2]; rfl
  | CliEnum => injection h with h2; rw [← h2]; rfl
  | CliDict k v => injection h with h2; rw [← h2]; rfl
  | CliList e =>
      rcases he : type_to_wdl e false with e0 | w0 <;>
        simp only [type_to_wdl, he, Except.map] at h
      · exact Except.noConfusion h
      · injection h with h2; rw [← h2]; rfl
  | CliTuple vs hom =>
      cases hom with
      | true =>
          cases vs with
          | nil =>
              simp only [type_to_wdl] at h
              exact Except.noConfusion h
          | cons v0 rest =>
              rcases he : type_to_wdl v0 false with e0 | w0 <;>
                simp only [type_to_wdl, he, Except.map] at h
              · exact Except.noConfusion h
              · injection h with h2; rw [← h2]; rfl
      | false =>
          rcases he : lowest_common_type vs with e0 | r <;>
            simp only [type_to_wdl, he, Except.map] at h
          · exact Except.noConfusion h
          · injection h with h2; rw [← h2]; rfl

theorem lct_set_invariant (l1 l2 : List CliType)
    (h : ∀ t : Tag, t ∈ l1.map tagOf ↔ t ∈ l2.map tagOf) :
    lowest_common_type l1 = lowest_common_type l2 := by
  have hd : ∀ t : Tag, t ∈ (l1.map tagOf).dedup ↔ t ∈ (l2.map tagOf).dedup := by
    intro t
    rw [List.mem_dedup, List.mem_dedup]
    exact h t
  have hdp : ∀ t : Tag, (t ∈ (l1.map tagOf).dedup) = (t ∈ (l2.map tagOf).dedup) :=
    fun t => propext (hd t)
  have hfin : (l1.map tagOf).dedup.toFinset = (l2.map tagOf).dedup.toFinset := by
    apply Finset.ext
    intro t
    rw [List.mem_toFinset, List.mem_toFinset]
    exact hd t
  have hlen : (l1.map tagOf).dedup.length = (l2.map tagOf).dedup.length := by
    rw [← List.toFinset_card_of_nodup (List.nodup_dedup (l1.map tagOf)),
      ← List.toFinset_card_of_nodup (List.nodup_dedup (l2.map tagOf)), hfin]
  by_cases h1 : (l1.map tagOf).dedup.length = 1
  · obtain ⟨a, ha⟩ := List.length_eq_one.mp h1
    obtain ⟨b, hb⟩ := List.length_eq_one.mp (hlen ▸ h1)
    have hab : a = b := by
      have hmem : a ∈ (l2.map tagOf).dedup := (hd a).mp (by rw [ha]; exact List.mem_singleton_self a)
      rw [hb, List.mem_singleton] at hmem
      exact hmem
    simp only [lowest_common_type]
    rw [ha, hb, hab]
  · have h2 : ¬ (l2.map tagOf).dedup.length = 1 := fun hh => h1 (by rw [hlen, hh])
    simp only [lowest_common_type]
    rw [if_neg h1, if_neg h2]
    simp only [hlen, hdp]

theorem lct_int_float (l : List CliType)
    (h : ∀ t : Tag, t ∈ l.map tagOf ↔ (t = Tag.integer ∨ t = Tag.float)) :
    lowest_common_type l = .ok .floatInst := by
  have hd : ∀ t : Tag, t ∈ (l.map tagOf).dedup ↔ (t = Tag.integer ∨ t = Tag.float) := by
    intro t
    rw [List.mem_dedup]
    exact h t
  have hfin : (l.map tagOf).dedup.toFinset = ({Tag.integer, Tag.float} : Finset Tag) := by
    apply Finset.ext
    intro t
    rw [List.mem_toFinset]
    simp [hd t]
  have hlen : (l.map tagOf).dedup.length = 2 := by
    rw [← List.toFinset_card_of_nodup (List.nodup_dedup (l.map tagOf)), hfin]
    decide
  simp only [lowest_common_type]
  rw [if_neg (by omega),
    if_pos ⟨hlen, (hd Tag.integer).mpr (Or.inl rfl), (hd Tag.float).mpr (Or.inr rfl)⟩]

/-- C1 (counterexample): `type_to_wdl` is not total.  On the non-homogenous
tuple with element types File and String (and `optional=true`), the lowering
of the element types raises, and the exception escapes `type_to_wdl`: no
target type expression is returned. -/
theorem c1_counterexample :
    type_to_wdl (.CliTuple [.CliFile, .CliString] false) true = .error .typeErrorOnJoin := by
  decide

/-- C1 (amended): for every abstract type that contains no tuple along the
mapper's recursion paths, and every value of the optional flag,
`type_to_wdl` returns a target type expression (unrecognized tags such as
Dict fall back to the string type rather than failing). -/
theorem c1_total_on_tuple_free (t : CliType) (optional : Bool) (h : tupleFree t = true) :
    ∃ w, type_to_wdl t optional = .ok w :=
  match t, h with
  | .CliString, _ => ⟨_, rfl⟩
  | .CliFloat, _ => ⟨_, rfl⟩
  | .CliBoolean, _ => ⟨_, rfl⟩
  | .CliInteger, _ => ⟨_, rfl⟩
  | .CliFile, _ => ⟨_, rfl⟩
  | .CliDir, _ => ⟨_, rfl⟩
  | .CliTuple _ _, h => Bool.noConfusion h
  | .CliList e, h =>
      match c1_total_on_tuple_free e false (by simpa [tupleFree] using h) with
      | ⟨w, hw⟩ => ⟨.array w (!optional) false, by simp [type_to_wdl, hw, Except.map]⟩
  | .CliEnum, _ => ⟨_, rfl⟩
  | .CliDict _ _, _ => ⟨_, rfl⟩

/-- C1 (witness): the amended totality at the concrete type List(Integer). -/
theorem c1_witness :
    tupleFree (.CliList .CliInteger) = true ∧
      ∃ w, type_to_wdl (.CliList .CliInteger) true = .ok w :=
  ⟨by decide, c1_total_on_tuple_free (.CliList .CliInteger) true (by decide)⟩

/-- C2 (code evaluation): for a positional argument the source's second
branch tests `isinstance(named_flag, model.Positional)` on the
`NamedArgument` wrapper instead of on `named_flag.arg`, so it never fires:
the built command placeholder carries only the name — in particular the
`position` keyword is never passed, contrary to the claim that the
position is recorded. -/
theorem c2_positional_not_recorded :
    flag_to_command_input
        { name := "sample", arg := .positional { position := 3, optional := true } } =
      { name := "sample" } ∧
    (flag_to_command_input
        { name := "sample", arg := .positional { position := 3, optional := true } }).position = none := by
  decide

/-- C3 (counterexample): mapping List(List(Integer)) with `optional=true`
yields a target type whose outermost wrapper is NOT marked optional — the
array branch never passes the `optional` keyword to the wrapper. -/
theorem c3_counterexample :
    (type_to_wdl (.CliList (.CliList .CliInteger)) true).map WdlType.optionalFlag = .ok false := by
  decide

/-- C3 (amended): mapping List(List(Integer)) with `optional=true` yields
an array of array of int in which no wrapper is marked optional; the
optional flag only clears the outer array's at-least-one-element
requirement, while the inner array (mapped with `optional=false`) keeps
that requirement and the innermost int is not optional. -/
theorem c3_amended_eval :
    type_to_wdl (.CliList (.CliList .CliInteger)) true =
      .ok (.array (.array (.primitive .int false) true false) false false) := by
  decide

/-- C4 (counterexample): the literal command token "my@tool" is sanitized
to "my_tool", not to "mytool": `make_command` substitutes an underscore
for each illegal character instead of removing it. -/
theorem c4_counterexample :
    stripCommandToken "my@tool" = "my_tool" ∧ ("my_tool" : String) ≠ "mytool" := by
  decide

/-- C4 (amended): every literal command token is sanitized with the same
illegal-character regex as identifier sanitization, but with each illegal
character replaced by an underscore rather than removed ("my@tool" becomes
"my_tool"); tokens that already match the identifier grammar are left
unchanged. -/
theorem c4_underscore_sub :
    stripCommandToken "my@tool" = "my_tool" ∧
      ∀ tok : String, matchesWdlIdent tok = true → stripCommandToken tok = tok := by
  constructor
  · decide
  · intro tok h
    cases hs : tok.data with
    | nil => simp [matchesWdlIdent, hs] at h
    | cons c rest =>
        rw [matchesWdlIdent, hs, Bool.and_eq_true] at h
        simp only [stripCommandToken, wdlStripSub, hs, if_pos h.1,
          stripTail_of_all _ _ h.2, List.singleton_append]
        rw [← hs]

/-- C4 (witness): the amended statement at the concrete legal token
"samtools". -/
theorem c4_witness :
    matchesWdlIdent "samtools" = true ∧ stripCommandToken "samtools" = "samtools" :=
  ⟨by decide, c4_underscore_sub.2 "samtools" (by decide)⟩

/-- C5 (code evaluation): lowering the tag sets {File, String} and
{Directory, Integer, Float} fails, but not with an error naming the
offending tags: the raise statement formats its message with
`", ".join(type_set)` over a set of classes, and `str.join` raises a bare
`TypeError` before the intended exception is built. -/
theorem c5_lct_error_eval :
    lowest_common_type [.CliFile, .CliString] = .error .typeErrorOnJoin ∧
      lowest_common_type [.CliDir, .CliInteger, .CliFloat] = .error .typeErrorOnJoin := by
  decide

/-- C6 (counterexample): a single application of the identifier-stripping
rule to "99x" yields "9x", which is neither empty nor a match of
`[a-zA-Z][a-zA-Z0-9_]*` (the anchored alternative removes only the first
leading non-letter), and a second application changes the string again, so
the rule is not idempotent. -/
theorem c6_counterexample :
    stripIdentOnce "99x" = "9x" ∧ matchesWdlIdent "9x" = false ∧
      ("9x" : String) ≠ "" ∧ stripIdentOnce (stripIdentOnce "99x") ≠ stripIdentOnce "99x" := by
  decide

/-- C6 (amended): on every input string whose first character (if any) is a
letter, a single application of the identifier-stripping rule yields either
the empty string or a string matching `[a-zA-Z][a-zA-Z0-9_]*`, and on such
inputs the stripping is idempotent. -/
theorem c6_strip_grammar_and_idem (s : String)
    (h : s.data.head?.all Char.isAlpha = true) :
    (stripIdentOnce s = "" ∨ matchesWdlIdent (stripIdentOnce s) = true) ∧
      stripIdentOnce (stripIdentOnce s) = stripIdentOnce s := by
  cases hs : s.data with
  | nil =>
      rw [stripIdentOnce, wdlStripSub, hs]
      exact ⟨Or.inl rfl, rfl⟩
  | cons c rest =>
      have hc : c.isAlpha = true := by
        rw [hs] at h
        simpa using h
      have hempty : ("" : String).data = [] := rfl
      have hstrip : stripIdentOnce s = String.mk (c :: rest.filter isIdentContinuation) := by
        simp only [stripIdentOnce, wdlStripSub, hs, if_pos hc, hempty, stripTail_nil,
          List.singleton_append]
      constructor
      · right
        simp only [hstrip, matchesWdlIdent]
        rw [Bool.and_eq_true]
        exact ⟨hc, filter_continuation_all rest⟩
      · rw [hstrip]
        simp only [stripIdentOnce, wdlStripSub, if_pos hc,
          stripTail_of_all _ _ (filter_continuation_all rest), List.singleton_append]

/-- C6 (witness): the amended statement at the concrete input "my@tool". -/
theorem c6_witness :
    (stripIdentOnce "my@tool" = "" ∨ matchesWdlIdent (stripIdentOnce "my@tool") = true) ∧
      stripIdentOnce (stripIdentOnce "my@tool") = stripIdentOnce "my@tool" :=
  c6_strip_grammar_and_idem "my@tool" (by decide)

/-- C7 (code evaluation): on the collection whose sole distinct tag is List
(representative List(Integer)), `lowest_common_type` returns the bare class
(`type_set.pop()`), not the representative type: the element parameter is
lost, and feeding the class back into `type_to_wdl` degrades it to a plain
string type because every `isinstance` check fails on a class. -/
theorem c7_lct_returns_class :
    lowest_common_type [.CliList .CliInteger] = .ok (.classOf .list) ∧
      typeToWdlOnLct (.classOf .list) false = .primitive .string false := by
  decide

/-- C8: `lowest_common_type` depends only on the set of distinct tags of
its input (hence is invariant under reordering and duplication), and on
every input whose distinct tags are exactly {Integer, Float} it returns
the `CliFloat()` instance. -/
theorem c8_lct_set_invariant_and_int_float :
    (∀ l1 l2 : List CliType,
        (∀ t : Tag, t ∈ l1.map tagOf ↔ t ∈ l2.map tagOf) →
        lowest_common_type l1 = lowest_common_type l2) ∧
    (∀ l : List CliType,
        (∀ t : Tag, t ∈ l.map tagOf ↔ (t = Tag.integer ∨ t = Tag.float)) →
        lowest_common_type l = .ok .floatInst) :=
  ⟨lct_set_invariant, lct_int_float⟩

/-- C8 (witness): invariance at a concrete reordering with duplication, and
the Integer/Float widening at a concrete input. -/
theorem c8_witness :
    lowest_common_type [.CliInteger, .CliFloat] =
        lowest_common_type [.CliFloat, .CliInteger, .CliInteger] ∧
      lowest_common_type [.CliInteger, .CliFloat] = .ok .floatInst :=
  ⟨c8_lct_set_invariant_and_int_float.1 _ _ (by decide),
    c8_lct_set_invariant_and_int_float.2 _ (by decide)⟩

/-- C9: for every Dict abstract type (any key and value types) and every
optional flag, `type_to_wdl` returns the primitive String target type via
the final fallback branch, even though the Dict tag is among the
structured tags that `lowest_common_type` refuses to unify. -/
theorem c9_dict_falls_back_to_string :
    (∀ (k v : CliType) (optional : Bool),
        type_to_wdl (.CliDict k v) optional = .ok (.primitive .string optional)) ∧
      Tag.dict ∈ complexTags :=
  ⟨fun _ _ _ => rfl, by decide⟩

/-- C10: whenever `type_to_wdl` returns a target type for a List or Tuple
abstract type, that type is an array that is never marked optional: the
optional argument only selects the array's at-least-one-element
requirement (`requires_multiple = not optional`), and the element type,
being mapped with `optional=false`, is itself not optional. -/
theorem c10_arrays_never_optional (t : CliType) (optional : Bool) (w : WdlType)
    (hs : isListOrTuple t = true) (h : type_to_wdl t optional = .ok w) :
    ∃ inner, w = .array inner (!optional) false ∧ inner.optionalFlag = false := by
  cases t with
  | CliString => exact Bool.noConfusion hs
  | CliFloat => exact Bool.noConfusion hs
  | CliBoolean => exact Bool.noConfusion hs
  | CliInteger => exact Bool.noConfusion hs
  | CliFile => exact Bool.noConfusion hs
  | CliDir => exact Bool.noConfusion hs
  | CliEnum => exact Bool.noConfusion hs
  | CliDict k v => exact Bool.noConfusion hs
  | CliList e =>
      rcases he : type_to_wdl e false with e0 | w0 <;>
        simp only [type_to_wdl, he, Except.map] at h
      · exact Except.noConfusion h
      · injection h with h2
        exact ⟨w0, h2.symm, wdl_of_false_not_optional e w0 he⟩
  | CliTuple vs hom =>
      cases hom with
      | true =>
          cases vs with
          | nil =>
              simp only [type_to_wdl] at h
              exact Except.noConfusion h
          | cons v0 rest =>
              rcases he : type_to_wdl v0 false with e0 | w0 <;>
                simp only [type_to_wdl, he, Except.map] at h
              · exact Except.noConfusion h
              · injection h with h2
                exact ⟨w0, h2.symm, wdl_of_false_not_optional v0 w0 he⟩
      | false =>
          rcases he : lowest_common_type vs with e0 | r <;>
            simp only [type_to_wdl, he, Except.map] at h
          · exact Except.noConfusion h
          · injection h with h2
            exact ⟨typeToWdlOnLct r false, h2.symm, typeToWdlOnLct_false_flag r⟩

/-- C10 (witness): the property at the concrete type List(Integer) with
`optional=true`. -/
theorem c10_witness :
    ∃ inner, (WdlType.array (.primitive .int false) false false) = .array inner (!true) false ∧
      inner.optionalFlag = false :=
  c10_arrays_never_optional (.CliList .CliInteger) true
    (.array (.primitive .int false) false false) (by decide) (by decide)
